import Mathlib

/-!
Verification of the parallel file copier (`src/copy.py`) and its helpers
(`src/lib/utils.py`) against the repository's specification.

The Python code is shallowly embedded:
* directory trees handed to the enumerator/counters are `FSTree` values;
* the mutable filesystem the copy worker acts on is an `FS` (a set of
  directory paths plus a map from paths to byte contents);
* a path is its list of components (`pathlib.Path.parts`);
* a Python exception is a `PyErr` value and fallible code returns `Except`.
-/

namespace PyCopy

/-- The Python exception classes the embedded code can raise. -/
inductive PyErr where
  | fileExistsError
  | notADirectoryError
  | fileNotFoundError
  | isADirectoryError
  | assertionError
  | typeError
  | indexError
  deriving DecidableEq, Repr

/-- A filesystem path, as its components (`pathlib.Path.parts`). -/
abbrev Path := List String

/-- A file's byte content. -/
abbrev Bytes := List Nat

/-! ## Directory-tree model for `walk_files` and the counters -/

/-- A directory tree as `os.scandir` exposes it: a regular file with a size,
or a directory with its entries. -/
inductive FSTree where
  | file (name : String) (size : Nat)
  | dir (name : String) (children : List FSTree)
  deriving Repr

/-- The filter applied to a file name, from
`if not ftype or (ftype and str(path_.name).endswith(ftype))`
(src/lib/utils.py line 814): no filter when `ftype` is absent, otherwise a
suffix match of `ftype` against the file name. -/
def fileMatch (ftype : Option String) (name : String) : Bool :=
  match ftype with
  | none => true
  | some t => List.isSuffixOf t.data name.data

mutual
/-- One iteration of the `os.scandir` loop body of `walk_files`
(src/lib/utils.py lines 810-820) on a single entry: a regular file is
yielded when it passes the filter; a directory is recursed into when
`recursive` is set and never yielded itself. Yielded paths are relative to
the walk root. -/
def walkEntry (ftype : Option String) (re : Bool) : FSTree → List Path
  | .file n _ => if fileMatch ftype n then [[n]] else []
  | .dir n cs => if re then (walkEntries ftype re cs).map (fun p => n :: p) else []

/-- The `os.scandir` loop of `walk_files` over a directory's entries. -/
def walkEntries (ftype : Option String) (re : Bool) : List FSTree → List Path
  | [] => []
  | t :: rest => walkEntry ftype re t ++ walkEntries ftype re rest
end

mutual
/-- The per-entry contribution to `count_dir_files`
(src/lib/utils.py lines 252-258). -/
def countEntry (ftype : Option String) (re : Bool) : FSTree → Nat
  | .file n _ => if fileMatch ftype n then 1 else 0
  | .dir _ cs => if re then count_dir_files ftype re cs else 0

/-- `count_dir_files` (src/lib/utils.py lines 232-260): the number of files
in a directory, with the same filter and recursion flags as `walk_files`.
Returns a single integer. -/
def count_dir_files (ftype : Option String) (re : Bool) : List FSTree → Nat
  | [] => 0
  | t :: rest => countEntry ftype re t + count_dir_files ftype re rest
end

/-- A Python value as far as the counting code's callers see it: either a
plain integer or a 2-tuple of integers. -/
inductive PyVal where
  | int (n : Nat)
  | pair (a b : Nat)
  deriving DecidableEq, Repr

/-- The value the call `count_dir_files(path, ftype, recursive)` evaluates
to: a plain integer. -/
def count_dir_files_py (ftype : Option String) (re : Bool) (cs : List FSTree) : PyVal :=
  .int (count_dir_files ftype re cs)

/-- Tuple unpacking `a, b = v`: raises `TypeError` when `v` is not a
2-tuple (`cannot unpack non-iterable int object`). -/
def unpack2 : PyVal → Except PyErr (Nat × Nat)
  | .int _ => .error .typeError
  | .pair a b => .ok (a, b)

/-- `count_dir_files_and_size` (src/lib/utils.py lines 263-296). Its
recursive branch executes
`num_files_, total_size_ = count_dir_files(path_, ftype=ftype, recursive=recursive)`,
unpacking the plain integer `count_dir_files` returns. -/
def count_dir_files_and_size (ftype : Option String) (re : Bool) :
    List FSTree → Except PyErr (Nat × Nat)
  | [] => .ok (0, 0)
  | .file n sz :: rest =>
      match count_dir_files_and_size ftype re rest with
      | .error e => .error e
      | .ok (c, s) => if fileMatch ftype n then .ok (c + 1, s + sz) else .ok (c, s)
  | .dir _ cs :: rest =>
      if re then
        match unpack2 (count_dir_files_py ftype re cs) with
        | .error e => .error e
        | .ok (nf, ts) =>
            match count_dir_files_and_size ftype re rest with
            | .error e => .error e
            | .ok (c, s) => .ok (c + nf, s + ts)
      else count_dir_files_and_size ftype re rest

/-- The spool step of `cli` (src/copy.py line 197):
`total_jobs, total_size = count_dir_files(source_dir, ftype=ftype, recursive=recursive)`,
a tuple unpacking of the integer `count_dir_files` returns. -/
def cliSpool (ftype : Option String) (re : Bool) (cs : List FSTree) :
    Except PyErr (Nat × Nat) :=
  unpack2 (count_dir_files_py ftype re cs)

/-! ## Generator semantics of `walk_files` -/

/-- The generator object a call to `walk_files` returns. Creating it stores
the arguments; none of the function body has run yet. -/
structure WalkGen where
  root : Option FSTree
  ftype : Option String
  recursive : Bool

/-- Calling `walk_files(path, ftype, recursive)` (src/lib/utils.py line 794).
The function contains `yield`, so the call only builds a generator object:
no statement of the body — in particular not the
`assert os.path.isdir(path)` on line 808 — executes at call time, and the
call itself cannot raise. `none` for `root` models a nonexistent path. -/
def walk_files_call (root : Option FSTree) (ftype : Option String) (re : Bool) :
    Except PyErr WalkGen :=
  .ok ⟨root, ftype, re⟩

/-- Consuming the generator runs the body of `walk_files`: first the
`assert os.path.isdir(path)` (an `AssertionError` when the root is missing
or not a directory), then the `os.scandir` walk. -/
def walk_files_consume (g : WalkGen) : Except PyErr (List Path) :=
  match g.root with
  | some (.dir _ cs) => .ok (walkEntries g.ftype g.recursive cs)
  | _ => .error .assertionError

/-! ## A path-addressing predicate, independent of the walk

`IsFileIn cs p sz` states that the relative path `p` addresses a regular
file of size `sz` somewhere inside the forest `cs`. It is the reference
notion of "regular file in the tree" the enumerator is measured against. -/

/-- `p` addresses a regular file of size `sz` in the forest `cs`. -/
inductive IsFileIn : List FSTree → Path → Nat → Prop
  | here {cs : List FSTree} {n : String} {sz : Nat} :
      FSTree.file n sz ∈ cs → IsFileIn cs [n] sz
  | there {cs : List FSTree} {d : String} {cs' : List FSTree} {p : Path} {sz : Nat} :
      FSTree.dir d cs' ∈ cs → IsFileIn cs' p sz → IsFileIn cs (d :: p) sz

/-! ## Path-store filesystem model for the copy worker

The worker mutates the real filesystem; here it is a state value threaded
through the embedded functions: the set of existing directory paths plus a
map from paths to the byte contents of existing regular files. -/

/-- The filesystem as the copy worker sees it. -/
structure FS where
  dirs : List Path
  files : Path → Option Bytes

/-- `pathlib.Path.is_dir`. -/
def isDir (fs : FS) (p : Path) : Bool := fs.dirs.contains p

/-- `pathlib.Path.is_file`. -/
def isFile (fs : FS) (p : Path) : Bool := (fs.files p).isSome

/-- `pathlib.Path.exists`. -/
def pyExists (fs : FS) (p : Path) : Bool := isDir fs p || isFile fs p

/-- Every prefix of `p` (the directories `os.makedirs p` ensures exist). -/
def pathPrefixes (p : Path) : List Path :=
  (List.range (p.length + 1)).map (fun i => p.take i)

/-- `os.makedirs(p)` (no `exist_ok`): raises `FileExistsError` when `p`
already exists (as a directory or a file); raises `NotADirectoryError` when
a proper prefix of `p` is a regular file; otherwise creates every missing
directory along `p`. -/
def makedirs (fs : FS) (p : Path) : Except PyErr FS :=
  if pyExists fs p then .error .fileExistsError
  else if (List.range p.length).any (fun i => isFile fs (p.take i)) then
    .error .notADirectoryError
  else .ok { fs with dirs := pathPrefixes p ++ fs.dirs }

/-- `open(p, 'rb')` followed by a full read: the file's bytes, or
`IsADirectoryError`/`FileNotFoundError`. -/
def readFile (fs : FS) (p : Path) : Except PyErr Bytes :=
  match fs.files p with
  | some c => .ok c
  | none => if isDir fs p then .error .isADirectoryError else .error .fileNotFoundError

/-- `open(p, "wb")` followed by a full write: replaces the regular file at
`p` (creating it if absent) when the parent is an existing directory;
raises `IsADirectoryError` when `p` is a directory, `NotADirectoryError`
when the parent is a regular file, `FileNotFoundError` when the parent is
missing. -/
def writeFile (fs : FS) (p : Path) (c : Bytes) : Except PyErr FS :=
  if isDir fs p then .error .isADirectoryError
  else if isDir fs p.dropLast then
    .ok { fs with files := fun q => if q = p then some c else fs.files q }
  else if isFile fs p.dropLast then .error .notADirectoryError
  else .error .fileNotFoundError

/-- `sub_path = p.parts[len(sd.parts):-1]` (src/copy.py line 53). -/
def subPath (sd p : Path) : Path := (p.drop sd.length).dropLast

/-- `output_path = os.path.join(output_dir, *sub_path)` (src/copy.py line 54). -/
def outputPath (od sd p : Path) : Path := od ++ subPath sd p

/-- `full_output_path = pathlib.Path(os.path.join(output_path, basename))`
with `basename = p.parts[-1]` (src/copy.py lines 52, 64). -/
def fullOutputPath (od sd p : Path) : Path := outputPath od sd p ++ [p.getLastD ""]

/-- The write/skip decision of `_copy` (src/copy.py lines 65-76): skip an
existing directory; for an existing regular file write only under
`overwrite`; write when nothing exists at the path. -/
def writeDecision (fs : FS) (full : Path) (overwrite : Bool) : Bool :=
  if pyExists fs full then
    if isDir fs full then false
    else if isFile fs full then overwrite
    else false
  else true

/-- Shallow embedding of the worker `_copy` (src/copy.py lines 42-92):
derive `output_path` and `full_output_path` from the job path, ensure the
output directories exist (`except FileExistsError: pass`), decide whether
to write, and if so read the whole source and write it to the destination.
Returns the filesystem after the call — including directories created
before a later failure — and either the `size` the function returns or the
exception it raises. -/
def _copy (fs : FS) (p sd od : Path) (overwrite : Bool) : FS × Except PyErr Nat :=
  match p.getLast? with
  | none => (fs, .error .indexError)
  | some _ =>
    let op := outputPath od sd p
    let step : FS ⊕ PyErr :=
      match makedirs fs op with
      | .ok fs' => .inl fs'
      | .error .fileExistsError => .inl fs
      | .error e => .inr e
    match step with
    | .inr e => (fs, .error e)
    | .inl fs₁ =>
      let full := fullOutputPath od sd p
      if writeDecision fs₁ full overwrite then
        match readFile fs₁ p with
        | .error e => (fs₁, .error e)
        | .ok doc =>
          match writeFile fs₁ full doc with
          | .error e => (fs₁, .error e)
          | .ok fs₂ => (fs₂, .ok doc.length)
      else (fs₁, .ok 0)

/-- Shallow embedding of `_copy_safe` (src/copy.py lines 28-39): run
`_copy`, catch any exception and log it (`logger.error`), and fall off the
end of the function — so the Python return value is `None` on every path.
Result: the filesystem, the error logged (if the job failed), and the value
returned to the pool. -/
def _copy_safe (fs : FS) (p sd od : Path) (overwrite : Bool) :
    FS × Option PyErr × Option Nat :=
  match _copy fs p sd od overwrite with
  | (fs', .ok _) => (fs', none, none)
  | (fs', .error e) => (fs', some e, none)

/-- The pool's traversal of the job stream with `_copy_safe`
(`pool.imap_unordered` in `cli`, src/copy.py lines 217-231), determinized
to submission order: the final filesystem and the per-job
(logged error, returned value) pairs the aggregation loop consumes. -/
def runPool (fs : FS) (jobs : List Path) (sd od : Path) (overwrite : Bool) :
    FS × List (Option PyErr × Option Nat) :=
  match jobs with
  | [] => (fs, [])
  | j :: rest =>
    let r := _copy_safe fs j sd od overwrite
    let k := runPool r.1 rest sd od overwrite
    (k.1, r.2 :: k.2)

/-- A sequential run of the raw worker `_copy` over a job list, recording
each job's own outcome (the value the spec calls the `JobResult`). -/
def runJobs (fs : FS) (jobs : List Path) (sd od : Path) (overwrite : Bool) :
    FS × List (Except PyErr Nat) :=
  match jobs with
  | [] => (fs, [])
  | j :: rest =>
    let r := _copy fs j sd od overwrite
    let k := runJobs r.1 rest sd od overwrite
    (k.1, r.2 :: k.2)

/-! ## `check_capture_logs` and the exit behavior of the run -/

/-- The observable outcome of `check_capture_logs`: the value of the global
`CAPTURE_LOGS_ALLOWED` afterwards, whether the pre-existing log file was
removed, and the process exit the call requested (`none`: execution
continues into the copy run). The path either holds a regular file
(`fileAtPath = true`) or nothing. -/
structure CaptureOutcome where
  captureLogsAllowed : Bool
  logFileRemoved : Bool
  exitCode : Option Nat
  deriving DecidableEq, Repr

/-- `user_allows_file_overwrite` (src/lib/utils.py lines 749-791): `True`
when no file exists at the path or `force` is set, otherwise the user's
answer to the confirmation prompt. -/
def user_allows_file_overwrite (fileAtPath force ans : Bool) : Bool :=
  if fileAtPath then (if force then true else (if ans then true else false)) else true

/-- `check_capture_logs` (src/lib/utils.py lines 172-200): nothing happens
without a path; when the user allows overwriting, `CAPTURE_LOGS_ALLOWED`
is set and an existing file at the path is removed; when the user declines,
an info line is logged and the function returns — it contains no
`sys.exit`, so no branch requests a process exit. -/
def check_capture_logs (pathGiven fileAtPath force ans : Bool) : CaptureOutcome :=
  if !pathGiven then ⟨false, false, none⟩
  else if user_allows_file_overwrite fileAtPath force ans then ⟨true, fileAtPath, none⟩
  else ⟨false, false, none⟩

/-! ## Concrete scenarios

Small filesystems and trees used to instantiate the theorems below. The
source root is `["s"]` and the destination root `["o"]` throughout. -/

/-- Destination root only; the source file `s/a` does not exist (a source
vanished before its job ran). -/
def fsMissingSource : FS := ⟨[["o"]], fun _ => none⟩

/-- A zero-byte source file `s/a`; nothing at the destination. -/
def fsEmptySource : FS := ⟨[["o"]], fun q => if q = ["s","a"] then some [] else none⟩

/-- Source file `s/a` (1 byte) and an already-existing destination file
`o/a`: the job is skipped when overwrite is disabled. -/
def fsSkipDemo : FS :=
  ⟨[["o"]], fun q =>
    if q = ["o","a"] then some [5] else if q = ["s","a"] then some [9] else none⟩

/-- A 2-byte source file `s/a`; nothing at the destination. -/
def fsWriteDemo : FS := ⟨[["o"]], fun q => if q = ["s","a"] then some [7,8] else none⟩

/-- Source file `s/x/a`, and a regular file already sitting at `o/x`, where
the job needs a destination directory: the job fails on every run. -/
def fsBlockedDest : FS :=
  ⟨[["o"],["s"],["s","x"]], fun q =>
    if q = ["o","x"] then some [0] else if q = ["s","x","a"] then some [1] else none⟩

/-- Source roots `s` and `o` with a single 1-byte source file `s/a`. -/
def fsIdemDemo : FS := ⟨[["o"],["s"]], fun q => if q = ["s","a"] then some [3] else none⟩

/-- The spec's example source tree `{a.txt, sub/b.txt, sub/c.log}`. -/
def exampleTree : List FSTree :=
  [.file "a.txt" 1, .dir "sub" [.file "b.txt" 2, .file "c.log" 3]]

/-! ## Helper lemmas about the filesystem operations -/

theorem makedirs_ok_files {fs : FS} {p : Path} {fs' : FS}
    (h : makedirs fs p = .ok fs') : fs'.files = fs.files := by
  unfold makedirs at h
  split at h
  · exact absurd h (by simp)
  split at h
  · exact absurd h (by simp)
  · cases h; rfl

theorem makedirs_ok_dirs {fs : FS} {p : Path} {fs' : FS}
    (h : makedirs fs p = .ok fs') : fs'.dirs = pathPrefixes p ++ fs.dirs := by
  unfold makedirs at h
  split at h
  · exact absurd h (by simp)
  split at h
  · exact absurd h (by simp)
  · cases h; rfl

theorem makedirs_fee_of_exists {fs : FS} {p : Path}
    (h : pyExists fs p = true) : makedirs fs p = .error .fileExistsError := by
  unfold makedirs
  simp [h]

/-- A directory present after a successful `makedirs p` was either already
present or is one of the prefixes of `p` (hence no longer than `p`). -/
theorem makedirs_ok_isDir {fs : FS} {p : Path} {fs' : FS} {q : Path}
    (h : makedirs fs p = .ok fs') (hq : isDir fs' q = true) :
    isDir fs q = true ∨ q.length ≤ p.length := by
  have hd := makedirs_ok_dirs h
  unfold isDir at hq ⊢
  rw [hd] at hq
  have hmem := (List.elem_iff).1 hq
  rcases List.mem_append.1 hmem with hnew | hold
  · right
    have hx : ∃ i < p.length + 1, p.take i = q := by
      simpa [pathPrefixes, List.mem_range] using hnew
    obtain ⟨i, hi, rfl⟩ := hx
    simp [List.length_take]
  · exact Or.inl (List.elem_iff.2 hold)

theorem makedirs_ok_isDir_of_isDir {fs : FS} {p : Path} {fs' : FS} {q : Path}
    (h : makedirs fs p = .ok fs') (hq : isDir fs q = true) : isDir fs' q = true := by
  have hd := makedirs_ok_dirs h
  unfold isDir at hq ⊢
  rw [hd]
  exact List.elem_iff.2 (List.mem_append.2 (Or.inr (List.elem_iff.1 hq)))

theorem makedirs_ok_isDir_self {fs : FS} {p : Path} {fs' : FS}
    (h : makedirs fs p = .ok fs') : isDir fs' p = true := by
  have hd := makedirs_ok_dirs h
  unfold isDir
  rw [hd]
  refine List.elem_iff.2 (List.mem_append.2 (Or.inl ?_))
  simp only [pathPrefixes, List.mem_map, List.mem_range]
  exact ⟨p.length, by omega, by simp⟩

theorem writeFile_ok_dirs {fs : FS} {p : Path} {c : Bytes} {fs' : FS}
    (h : writeFile fs p c = .ok fs') : fs'.dirs = fs.dirs := by
  unfold writeFile at h
  split at h
  · exact absurd h (by simp)
  split at h
  · cases h; rfl
  · split at h <;> exact absurd h (by simp)

theorem writeFile_ok_files {fs : FS} {p : Path} {c : Bytes} {fs' : FS}
    (h : writeFile fs p c = .ok fs') :
    fs'.files = fun q => if q = p then some c else fs.files q := by
  unfold writeFile at h
  split at h
  · exact absurd h (by simp)
  split at h
  · cases h; rfl
  · split at h <;> exact absurd h (by simp)

theorem isFile_congr {fs fs' : FS} (h : fs'.files = fs.files) (q : Path) :
    isFile fs' q = isFile fs q := by simp [isFile, h]

theorem pyExists_makedirs_ok {fs : FS} {op : Path} {fs' : FS} {q : Path}
    (h : makedirs fs op = .ok fs') (hq : pyExists fs q = true) :
    pyExists fs' q = true := by
  unfold pyExists at hq ⊢
  rw [isFile_congr (makedirs_ok_files h)]
  rcases Bool.or_eq_true_iff.1 hq with hd | hf
  · exact Bool.or_eq_true_iff.2 (Or.inl (makedirs_ok_isDir_of_isDir h hd))
  · exact Bool.or_eq_true_iff.2 (Or.inr hf)

theorem pyExists_writeFile_ok {fs : FS} {full : Path} {c : Bytes} {fs' : FS}
    (h : writeFile fs full c = .ok fs') {q : Path} (hq : pyExists fs q = true) :
    pyExists fs' q = true := by
  unfold pyExists at hq ⊢
  unfold isDir isFile at hq ⊢
  rw [writeFile_ok_dirs h, writeFile_ok_files h]
  by_cases hqf : q = full
  · subst hqf; simp
  · simpa [hqf] using hq

/-- The destination-file existence established by a successful write. -/
theorem writeFile_ok_isFile_self {fs : FS} {full : Path} {c : Bytes} {fs' : FS}
    (h : writeFile fs full c = .ok fs') : isFile fs' full = true := by
  unfold isFile
  rw [writeFile_ok_files h]
  simp

/-- Any single `_copy` step preserves the existence of a path: the worker
creates directories and writes files but never removes anything. -/
theorem copy_mono (fs : FS) (p sd od : Path) (ov : Bool) (q : Path)
    (hq : pyExists fs q = true) : pyExists (_copy fs p sd od ov).1 q = true := by
  unfold _copy
  cases hb : p.getLast? with
  | none => simpa using hq
  | some b =>
    dsimp only
    cases hmd : makedirs fs (outputPath od sd p) with
    | error e =>
      cases e <;> dsimp only
      case fileExistsError =>
        split
        · split
          · simpa using hq
          · split
            · simpa using hq
            · next fs2 doc hw => simpa using pyExists_writeFile_ok hw hq
        · simpa using hq
      all_goals simpa using hq
    | ok fs1 =>
      dsimp only
      have h1 : pyExists fs1 q = true := pyExists_makedirs_ok hmd hq
      split
      · split
        · simpa using h1
        · split
          · simpa using h1
          · next fs2 doc hw => simpa using pyExists_writeFile_ok hw h1
      · simpa using h1

theorem exists_of_makedirs_fee {fs : FS} {p : Path}
    (h : makedirs fs p = .error .fileExistsError) : pyExists fs p = true := by
  unfold makedirs at h
  by_cases hp : pyExists fs p = true
  · exact hp
  · rw [if_neg hp] at h
    split at h
    · exact absurd h (by simp)
    · exact absurd h (by simp)

theorem makedirs_error_cases {fs : FS} {p : Path} {e : PyErr}
    (h : makedirs fs p = .error e) :
    e = .fileExistsError ∨ e = .notADirectoryError := by
  unfold makedirs at h
  split at h
  · exact Or.inl (by simp_all)
  split at h
  · exact Or.inr (by simp_all)
  · simp at h

theorem exists_of_writeDecision_false {fs : FS} {full : Path} {ov : Bool}
    (h : writeDecision fs full ov = false) : pyExists fs full = true := by
  unfold writeDecision at h
  by_cases hp : pyExists fs full = true
  · exact hp
  · simp [hp] at h

/-- With overwrite disabled, an existing destination is always skipped. -/
theorem writeDecision_false_of_exists {fs : FS} {full : Path}
    (h : pyExists fs full = true) : writeDecision fs full false = false := by
  unfold writeDecision
  simp [h]

theorem readFile_ok_files {fs : FS} {p : Path} {doc : Bytes}
    (h : readFile fs p = .ok doc) : fs.files p = some doc := by
  unfold readFile at h
  split at h
  · next c heq => rw [heq]; simpa using h
  · split at h <;> simp_all

/-- The write decision is unaffected by the `makedirs` of the job's own
output directory: the created directories are prefixes of `output_path`,
all strictly shorter than `full_output_path`. -/
theorem writeDecision_makedirs {fs fs1 : FS} {od sd p : Path} (ov : Bool)
    (hmd : makedirs fs (outputPath od sd p) = .ok fs1) :
    writeDecision fs1 (fullOutputPath od sd p) ov
      = writeDecision fs (fullOutputPath od sd p) ov := by
  have hfile := isFile_congr (makedirs_ok_files hmd) (fullOutputPath od sd p)
  have hlen : (fullOutputPath od sd p).length = (outputPath od sd p).length + 1 := by
    simp [fullOutputPath]
  have hdir : isDir fs1 (fullOutputPath od sd p) = isDir fs (fullOutputPath od sd p) := by
    cases hd : isDir fs (fullOutputPath od sd p) with
    | true => exact makedirs_ok_isDir_of_isDir hmd hd
    | false =>
      cases hd1 : isDir fs1 (fullOutputPath od sd p) with
      | false => rfl
      | true =>
        rcases makedirs_ok_isDir hmd hd1 with hold | hle
        · rw [hd] at hold; exact hold.symm
        · omega
  unfold writeDecision pyExists
  rw [hfile, hdir]

/-- A job whose output directory and destination file both already exist is
a pure skip under disabled overwrite: the filesystem is untouched and the
worker returns 0. -/
theorem copy_skip {fs : FS} {p : Path} (sd od : Path) {b : String}
    (hb : p.getLast? = some b)
    (hop : pyExists fs (outputPath od sd p) = true)
    (hfull : pyExists fs (fullOutputPath od sd p) = true) :
    _copy fs p sd od false = (fs, .ok 0) := by
  unfold _copy
  rw [hb]
  dsimp only
  rw [makedirs_fee_of_exists hop]
  dsimp only
  rw [writeDecision_false_of_exists hfull]
  simp

/-- Whenever the destination check resolves to a skip, `_copy` returns 0,
provided the `makedirs` step did not raise an uncaught error. -/
theorem copy_skip_result {fs : FS} {p sd od : Path} {ov : Bool} {b : String}
    (hb : p.getLast? = some b)
    (hmd : makedirs fs (outputPath od sd p) ≠ .error .notADirectoryError)
    (hdec : writeDecision fs (fullOutputPath od sd p) ov = false) :
    (_copy fs p sd od ov).2 = .ok 0 := by
  unfold _copy
  rw [hb]
  dsimp only
  cases hm : makedirs fs (outputPath od sd p) with
  | error e =>
    rcases makedirs_error_cases hm with rfl | rfl
    · dsimp only
      rw [hdec]
      simp
    · exact absurd hm hmd
  | ok fs1 =>
    dsimp only
    rw [writeDecision_makedirs ov hm, hdec]
    simp

/-- After a `_copy` call that returns normally (skip or write), the job's
output directory and destination file both exist. -/
theorem copy_ok_post {fs : FS} {p sd od : Path} {ov : Bool} {fs' : FS} {n : Nat}
    (h : _copy fs p sd od ov = (fs', .ok n)) :
    p.getLast? ≠ none ∧ pyExists fs' (outputPath od sd p) = true ∧
      pyExists fs' (fullOutputPath od sd p) = true := by
  unfold _copy at h
  cases hb : p.getLast? with
  | none => rw [hb] at h; simp at h
  | some b =>
    rw [hb] at h
    dsimp only at h
    refine ⟨by simp [hb], ?_⟩
    cases hm : makedirs fs (outputPath od sd p) with
    | error e =>
      rw [hm] at h
      rcases makedirs_error_cases hm with rfl | rfl
      · dsimp only at h
        have hop : pyExists fs (outputPath od sd p) = true := exists_of_makedirs_fee hm
        split at h
        · split at h
          · simp at h
          · split at h
            · simp at h
            · next fs2 doc hw =>
              simp only [Prod.mk.injEq, Except.ok.injEq] at h
              obtain ⟨rfl, rfl⟩ := h
              exact ⟨pyExists_writeFile_ok hw hop, by
                unfold pyExists
                simp [writeFile_ok_isFile_self hw]⟩
        · next hdec =>
          simp only [Prod.mk.injEq] at h
          obtain ⟨rfl, -⟩ := h
          exact ⟨hop, exists_of_writeDecision_false (by simpa using hdec)⟩
      · simp at h
    | ok fs1 =>
      rw [hm] at h
      dsimp only at h
      have hop1 : pyExists fs1 (outputPath od sd p) = true := by
        unfold pyExists
        simp [makedirs_ok_isDir_self hm]
      split at h
      · split at h
        · simp at h
        · split at h
          · simp at h
          · next fs2 doc hw =>
            simp only [Prod.mk.injEq, Except.ok.injEq] at h
            obtain ⟨rfl, rfl⟩ := h
            exact ⟨pyExists_writeFile_ok hw hop1, by
              unfold pyExists
              simp [writeFile_ok_isFile_self hw]⟩
      · next hdec =>
        simp only [Prod.mk.injEq] at h
        obtain ⟨rfl, -⟩ := h
        exact ⟨hop1, exists_of_writeDecision_false (by simpa using hdec)⟩

/-- When the destination check resolves to a write and `_copy` returns
normally, the whole source content was read and rewritten at the
destination: the destination afterwards holds exactly the source bytes and
the returned count is the source's byte length. -/
theorem copy_write_round_trip {fs : FS} {p sd od : Path} {ov : Bool} {fs2 : FS} {n : Nat}
    (h : _copy fs p sd od ov = (fs2, .ok n))
    (hdec : writeDecision fs (fullOutputPath od sd p) ov = true) :
    ∃ doc, fs.files p = some doc ∧ n = doc.length ∧
      fs2.files (fullOutputPath od sd p) = some doc := by
  unfold _copy at h
  cases hb : p.getLast? with
  | none => rw [hb] at h; simp at h
  | some b =>
    rw [hb] at h
    dsimp only at h
    cases hm : makedirs fs (outputPath od sd p) with
    | error e =>
      rw [hm] at h
      rcases makedirs_error_cases hm with rfl | rfl
      · dsimp only at h
        rw [hdec] at h
        simp only [if_true] at h
        split at h
        · simp at h
        · next doc hr =>
          split at h
          · simp at h
          · next fsb hw =>
            simp only [Prod.mk.injEq, Except.ok.injEq] at h
            obtain ⟨rfl, rfl⟩ := h
            refine ⟨doc, readFile_ok_files hr, rfl, ?_⟩
            rw [writeFile_ok_files hw]
            simp
      · simp at h
    | ok fs1 =>
      rw [hm] at h
      dsimp only at h
      rw [writeDecision_makedirs ov hm, hdec] at h
      simp only [if_true] at h
      split at h
      · simp at h
      · next doc hr =>
        split at h
        · simp at h
        · next fsb hw =>
          simp only [Prod.mk.injEq, Except.ok.injEq] at h
          obtain ⟨rfl, rfl⟩ := h
          refine ⟨doc, ?_, rfl, ?_⟩
          · rw [← makedirs_ok_files hm]
            exact readFile_ok_files hr
          · rw [writeFile_ok_files hw]
            simp

theorem runJobs_mono (fs : FS) (jobs : List Path) (sd od : Path) (ov : Bool) (q : Path)
    (hq : pyExists fs q = true) : pyExists (runJobs fs jobs sd od ov).1 q = true := by
  induction jobs generalizing fs with
  | nil => simpa [runJobs] using hq
  | cons j rest ih =>
    simp only [runJobs]
    exact ih _ (copy_mono fs j sd od ov q hq)

/-- When every job of a run returned normally, the run's final filesystem
holds every job's output directory and destination file. -/
theorem runJobs_all_ok_post (fs : FS) (jobs : List Path) (sd od : Path) (ov : Bool)
    (hall : ∀ r ∈ (runJobs fs jobs sd od ov).2, ∃ n, r = Except.ok n) :
    ∀ j ∈ jobs,
      pyExists (runJobs fs jobs sd od ov).1 (outputPath od sd j) = true ∧
      pyExists (runJobs fs jobs sd od ov).1 (fullOutputPath od sd j) = true ∧
      j.getLast? ≠ none := by
  induction jobs generalizing fs with
  | nil => intro j hj; cases hj
  | cons j0 rest ih =>
    intro j hj
    simp only [runJobs] at hall ⊢
    obtain ⟨n, hn⟩ := hall _ (List.mem_cons_self _ _)
    have hcopy : _copy fs j0 sd od ov = ((_copy fs j0 sd od ov).1, Except.ok n) := by
      rw [← hn]
    have hrest : ∀ r ∈ (runJobs (_copy fs j0 sd od ov).1 rest sd od ov).2,
        ∃ m, r = Except.ok m := fun r hr => hall r (List.mem_cons_of_mem _ hr)
    rcases List.mem_cons.1 hj with rfl | hjr
    · obtain ⟨hlast, hop, hfull⟩ := copy_ok_post hcopy
      exact ⟨runJobs_mono _ rest sd od ov _ hop,
             runJobs_mono _ rest sd od ov _ hfull, hlast⟩
    · exact ih _ hrest j hjr

/-- A run over jobs whose destinations all already exist, with overwrite
disabled, leaves the filesystem untouched and returns 0 for every job. -/
theorem runJobs_all_skip (fs : FS) (jobs : List Path) (sd od : Path)
    (hall : ∀ j ∈ jobs,
      pyExists fs (outputPath od sd j) = true ∧
      pyExists fs (fullOutputPath od sd j) = true ∧ j.getLast? ≠ none) :
    runJobs fs jobs sd od false = (fs, jobs.map (fun _ => Except.ok 0)) := by
  induction jobs with
  | nil => simp [runJobs]
  | cons j rest ih =>
    obtain ⟨hop, hfull, hlast⟩ := hall j (List.mem_cons_self _ _)
    obtain ⟨b, hb⟩ := Option.ne_none_iff_exists'.1 hlast
    have hskip := copy_skip sd od hb hop hfull
    simp only [runJobs, hskip]
    rw [ih (fun j2 hj2 => hall j2 (List.mem_cons_of_mem _ hj2))]
    simp

theorem runPool_length (fs : FS) (jobs : List Path) (sd od : Path) (ov : Bool) :
    ((runPool fs jobs sd od ov).2).length = jobs.length := by
  induction jobs generalizing fs with
  | nil => simp [runPool]
  | cons j rest ih => simp [runPool, ih]

/-- The pool run decomposes over concatenation of the job stream: the jobs
after any prefix — in particular after a failing job — are still processed,
from the state the prefix left behind. -/
theorem runPool_append (fs : FS) (xs ys : List Path) (sd od : Path) (ov : Bool) :
    runPool fs (xs ++ ys) sd od ov =
      ((runPool (runPool fs xs sd od ov).1 ys sd od ov).1,
       (runPool fs xs sd od ov).2 ++ (runPool (runPool fs xs sd od ov).1 ys sd od ov).2) := by
  induction xs generalizing fs with
  | nil => simp [runPool]
  | cons x xs ih => simp [runPool, ih]

theorem copy_safe_of_error {fs : FS} {p sd od : Path} {ov : Bool} {e : PyErr}
    (h : (_copy fs p sd od ov).2 = .error e) :
    _copy_safe fs p sd od ov = ((_copy fs p sd od ov).1, some e, none) := by
  unfold _copy_safe
  cases hc : _copy fs p sd od ov with
  | mk fsa r =>
    rw [hc] at h
    dsimp at h
    subst h
    rfl

theorem copy_safe_of_ok {fs : FS} {p sd od : Path} {ov : Bool} {n : Nat}
    (h : (_copy fs p sd od ov).2 = .ok n) :
    _copy_safe fs p sd od ov = ((_copy fs p sd od ov).1, none, none) := by
  unfold _copy_safe
  cases hc : _copy fs p sd od ov with
  | mk fsa r =>
    rw [hc] at h
    dsimp at h
    subst h
    rfl

theorem copy_safe_ret_none (fs : FS) (p sd od : Path) (ov : Bool) :
    (_copy_safe fs p sd od ov).2.2 = none := by
  unfold _copy_safe
  cases hc : _copy fs p sd od ov with
  | mk fsa r => cases r <;> rfl

/-- The counter performs the identical walk: it returns exactly the number
of paths the enumerator yields, for every tree, filter and recursion flag. -/
theorem count_eq_walk_length :
    ∀ (ftype : Option String) (re : Bool) (cs : List FSTree),
      count_dir_files ftype re cs = (walkEntries ftype re cs).length
  | ftype, re, [] => by simp [count_dir_files, walkEntries]
  | ftype, re, .file n sz :: rest => by
      have ih := count_eq_walk_length ftype re rest
      simp only [count_dir_files, walkEntries, countEntry, walkEntry, List.length_append, ih]
      cases fileMatch ftype n <;> simp
  | ftype, re, .dir d cs :: rest => by
      have ih1 := count_eq_walk_length ftype re rest
      have ih2 := count_eq_walk_length ftype re cs
      simp only [count_dir_files, walkEntries, countEntry, walkEntry, List.length_append, ih1]
      cases re <;> simp [ih2]
  termination_by _ _ cs => sizeOf cs

theorem isFileIn_nil {p : Path} {sz : Nat} : ¬ IsFileIn [] p sz := by
  intro h
  cases h <;> simp_all

theorem isFileIn_ne_nil {cs : List FSTree} {p : Path} {sz : Nat}
    (h : IsFileIn cs p sz) : p ≠ [] := by
  cases h <;> simp

theorem isFileIn_cons {t : FSTree} {rest : List FSTree} {p : Path} {sz : Nat} :
    IsFileIn (t :: rest) p sz ↔
      (∃ n, t = .file n sz ∧ p = [n]) ∨
      (∃ d cs q, t = .dir d cs ∧ p = d :: q ∧ IsFileIn cs q sz) ∨
      IsFileIn rest p sz := by
  constructor
  · intro h
    cases h with
    | here hmem =>
      rcases List.mem_cons.1 hmem with heq | hr
      · exact Or.inl ⟨_, heq.symm, rfl⟩
      · exact Or.inr (Or.inr (IsFileIn.here hr))
    | there hmem hin =>
      rcases List.mem_cons.1 hmem with heq | hr
      · exact Or.inr (Or.inl ⟨_, _, _, heq.symm, rfl, hin⟩)
      · exact Or.inr (Or.inr (IsFileIn.there hr hin))
  · rintro (⟨n, rfl, rfl⟩ | ⟨d, cs, q, rfl, rfl, hin⟩ | hr)
    · exact IsFileIn.here (List.mem_cons_self _ _)
    · exact IsFileIn.there (List.mem_cons_self _ _) hin
    · cases hr with
      | here hmem => exact IsFileIn.here (List.mem_cons_of_mem _ hmem)
      | there hmem hin => exact IsFileIn.there (List.mem_cons_of_mem _ hmem) hin

/-- Membership in the recursive walk: exactly the paths that address a
regular file somewhere in the tree and whose file name passes the filter. -/
theorem mem_walkEntries :
    ∀ (ftype : Option String) (cs : List FSTree) (p : Path),
      p ∈ walkEntries ftype true cs ↔
        ((∃ sz, IsFileIn cs p sz) ∧
         ∃ b, p.getLast? = some b ∧ fileMatch ftype b = true)
  | ftype, [], p => by
      simp only [walkEntries, List.not_mem_nil, false_iff]
      rintro ⟨⟨sz, hin⟩, -⟩
      exact isFileIn_nil hin
  | ftype, .file n sz :: rest, p => by
      have ih := mem_walkEntries ftype rest p
      simp only [walkEntries, walkEntry, List.mem_append, ih, isFileIn_cons]
      constructor
      · rintro (hf | ⟨⟨sz2, hin⟩, hb⟩)
        · by_cases hm : fileMatch ftype n = true
          · simp only [hm, if_true, List.mem_singleton] at hf
            subst hf
            exact ⟨⟨sz, Or.inl ⟨n, rfl, rfl⟩⟩, ⟨n, rfl, hm⟩⟩
          · simp [hm] at hf
        · exact ⟨⟨sz2, Or.inr (Or.inr hin)⟩, hb⟩
      · rintro ⟨⟨sz2, (⟨n2, heq, rfl⟩ | ⟨d, cs2, q, heq, rfl, hin⟩ | hin)⟩, b, hb, hm⟩
        · cases heq
          simp only [List.getLast?_singleton, Option.some.injEq] at hb
          subst hb
          exact Or.inl (by simp [hm])
        · cases heq
        · exact Or.inr ⟨⟨sz2, hin⟩, b, hb, hm⟩
  | ftype, .dir d cs :: rest, p => by
      have ih := mem_walkEntries ftype rest p
      simp only [walkEntries, walkEntry, if_true, List.mem_append, ih, isFileIn_cons]
      constructor
      · rintro (hmap | ⟨⟨sz2, hin⟩, hb⟩)
        · rcases List.mem_map.1 hmap with ⟨q, hq, rfl⟩
          obtain ⟨⟨sz2, hin⟩, b, hb, hm⟩ := (mem_walkEntries ftype cs q).1 hq
          have hqne : q ≠ [] := isFileIn_ne_nil hin
          refine ⟨⟨sz2, Or.inr (Or.inl ⟨d, cs, q, rfl, rfl, hin⟩)⟩, b, ?_, hm⟩
          obtain ⟨x, xs, rfl⟩ := List.exists_cons_of_ne_nil hqne
          simpa [List.getLast?_cons_cons] using hb
        · exact ⟨⟨sz2, Or.inr (Or.inr hin)⟩, hb⟩
      · rintro ⟨⟨sz2, (⟨n2, heq, rfl⟩ | ⟨d2, cs2, q, heq, rfl, hin⟩ | hin)⟩, b, hb, hm⟩
        · cases heq
        · cases heq
          refine Or.inl (List.mem_map.2 ⟨q, ?_, rfl⟩)
          refine (mem_walkEntries ftype cs q).2 ⟨⟨sz2, hin⟩, b, ?_, hm⟩
          have hqne : q ≠ [] := isFileIn_ne_nil hin
          obtain ⟨x, xs, rfl⟩ := List.exists_cons_of_ne_nil hqne
          simpa [List.getLast?_cons_cons] using hb
        · exact Or.inr ⟨⟨sz2, hin⟩, b, hb, hm⟩
  termination_by _ cs _ => sizeOf cs

/-! ## Claim theorems -/

/-- C1: Per-job failure isolation. The pool produces exactly one result per
submitted job, processing continues past any prefix of the stream (so a
failing job never prevents later jobs from being processed), and any
exception `_copy` raises is caught by `_copy_safe` at the per-job boundary
and converted into a logged result carrying the error instead of
propagating out of the worker. -/
theorem c1_per_job_failure_isolation :
    (∀ (fs : FS) (jobs : List Path) (sd od : Path) (ov : Bool),
      ((runPool fs jobs sd od ov).2).length = jobs.length) ∧
    (∀ (fs : FS) (xs ys : List Path) (sd od : Path) (ov : Bool),
      runPool fs (xs ++ ys) sd od ov =
        ((runPool (runPool fs xs sd od ov).1 ys sd od ov).1,
         (runPool fs xs sd od ov).2 ++
           (runPool (runPool fs xs sd od ov).1 ys sd od ov).2)) ∧
    (∀ (fs : FS) (p sd od : Path) (ov : Bool) (e : PyErr),
      (_copy fs p sd od ov).2 = .error e →
        _copy_safe fs p sd od ov = ((_copy fs p sd od ov).1, some e, none)) :=
  ⟨runPool_length, runPool_append, fun _ _ _ _ _ _ h => copy_safe_of_error h⟩

/-- C1 witness: a job whose source file is missing fails with
`FileNotFoundError`; `_copy_safe` turns it into a logged error and returns,
leaving the filesystem as `_copy` left it. -/
theorem c1_witness :
    _copy_safe fsMissingSource ["s","a"] ["s"] ["o"] false
      = (fsMissingSource, some .fileNotFoundError, none) :=
  c1_per_job_failure_isolation.2.2 fsMissingSource ["s","a"] ["s"] ["o"] false
    .fileNotFoundError rfl

/-- C2: the spool step of `cli` unpacks the single integer returned by
`count_dir_files` into a 2-tuple, which raises `TypeError` on every input;
the underlying count does apply the same filter/recursion semantics as the
enumerator; and `count_dir_files_and_size` — the function that would return
the (count, size) pair — itself raises `TypeError` on any recursive walk
that meets a subdirectory, because its recursive branch unpacks the integer
returned by `count_dir_files`. -/
theorem c2_spool_counting_type_error :
    (∀ (ftype : Option String) (re : Bool) (cs : List FSTree),
      cliSpool ftype re cs = .error .typeError) ∧
    (∀ (ftype : Option String) (re : Bool) (cs : List FSTree),
      count_dir_files ftype re cs = (walkEntries ftype re cs).length) ∧
    count_dir_files_and_size none true [.dir "sub" [.file "b" 2]] = .error .typeError :=
  ⟨fun _ _ _ => rfl, count_eq_walk_length, rfl⟩

/-- C3 counterexample: with a nonexistent root, the call to `walk_files`
raises nothing at all (it returns a generator object), and consuming the
generator raises `AssertionError` — not the `NotADirectoryError` the claim
states, and not eagerly at the call. -/
theorem c3_counterexample :
    walk_files_call none (some "txt") true = .ok ⟨none, some "txt", true⟩ ∧
    walk_files_consume ⟨none, some "txt", true⟩ = .error .assertionError ∧
    PyErr.assertionError ≠ PyErr.notADirectoryError :=
  ⟨rfl, rfl, by decide⟩

/-- C3 (amended): for every root, calling `walk_files` succeeds and merely
builds a generator (the body, including the root check, has not run); when
the root is missing or not a directory, the `assert os.path.isdir(path)`
fails with `AssertionError` at the first consumption of the generator. -/
theorem c3_lazy_assertion_on_bad_root :
    ∀ (root : Option FSTree) (ftype : Option String) (re : Bool),
      walk_files_call root ftype re = .ok ⟨root, ftype, re⟩ ∧
      ((∀ n cs, root ≠ some (.dir n cs)) →
        walk_files_consume ⟨root, ftype, re⟩ = .error .assertionError) := by
  intro root ftype re
  refine ⟨rfl, fun hroot => ?_⟩
  unfold walk_files_consume
  cases root with
  | none => rfl
  | some t =>
    cases t with
    | file n sz => rfl
    | dir n cs => exact absurd rfl (hroot n cs)

/-- C3 witness: a root that is a regular file, consumed after the call. -/
theorem c3_witness :
    walk_files_consume ⟨some (.file "f" 0), some "txt", false⟩
      = .error .assertionError :=
  (c3_lazy_assertion_on_bad_root (some (.file "f" 0)) (some "txt") false).2
    (fun n cs h => by simp at h)

/-- C4: destination-path invariant. For every source path `sd ++ rel` under
the source root, the worker's `full_output_path` is the destination root
followed by the source-relative components: the directory structure below
the source root is reproduced verbatim under the destination root. -/
theorem c4_destination_path_invariant :
    ∀ (od sd rel : Path), rel ≠ [] →
      fullOutputPath od sd (sd ++ rel) = od ++ rel := by
  intro od sd rel h
  rcases List.eq_nil_or_concat rel with rfl | ⟨q, bl, rfl⟩
  · exact absurd rfl h
  · unfold fullOutputPath outputPath subPath
    rw [List.drop_left]
    simp only [List.concat_eq_append]
    rw [List.dropLast_concat]
    rw [show sd ++ (q ++ [bl]) = (sd ++ q) ++ [bl] by simp]
    rw [List.getLastD_concat]
    simp

/-- C4 witness: source `s/x/a` lands at `o/x/a`. -/
theorem c4_witness :
    fullOutputPath ["o"] ["s"] (["s"] ++ ["x","a"]) = ["o"] ++ ["x","a"] :=
  c4_destination_path_invariant ["o"] ["s"] ["x","a"] (by simp)

/-- C5 counterexample: a zero-byte source file whose destination does not
exist proceeds to write (the decision is `true`, not a skip), yet the
returned byte count is 0 — so a byte count of 0 does not imply `Skipped`,
refuting the claim's "0 exactly in the Skipped cases". -/
theorem c5_counterexample :
    writeDecision fsEmptySource (fullOutputPath ["o"] ["s"] ["s","a"]) false = true ∧
    _copy fsEmptySource ["s","a"] ["s"] ["o"] false
      = ((_copy fsEmptySource ["s","a"] ["s"] ["o"] false).1, .ok 0) :=
  ⟨rfl, rfl⟩

/-- C5 (amended): the worker's skip/write decision table — an existing
directory is skipped; an existing regular file is skipped when overwrite is
disabled and written when it is enabled; a free path is written — and every
skipped job returns byte count 0 (a written job returns the source's byte
length, which may also be 0). -/
theorem c5_skip_write_decision :
    (∀ (fs : FS) (full : Path) (ov : Bool),
      (isDir fs full = true → writeDecision fs full ov = false) ∧
      (isFile fs full = true → ov = false → writeDecision fs full ov = false) ∧
      (isFile fs full = true → isDir fs full = false → ov = true →
        writeDecision fs full ov = true) ∧
      (pyExists fs full = false → writeDecision fs full ov = true)) ∧
    (∀ (fs : FS) (p sd od : Path) (ov : Bool) (b : String),
      p.getLast? = some b →
      makedirs fs (outputPath od sd p) ≠ .error .notADirectoryError →
      writeDecision fs (fullOutputPath od sd p) ov = false →
      (_copy fs p sd od ov).2 = .ok 0) := by
  constructor
  · intro fs full ov
    refine ⟨fun hd => ?_, fun hf hov => ?_, fun hf hd hov => ?_, fun hne => ?_⟩
    · unfold writeDecision pyExists
      rw [hd]
      simp
    · unfold writeDecision pyExists
      rw [hf, hov]
      cases isDir fs full <;> simp
    · unfold writeDecision pyExists
      rw [hf, hd, hov]
      simp
    · unfold writeDecision
      rw [hne]
      simp
  · intro fs p sd od ov b hb hmd hdec
    exact copy_skip_result hb hmd hdec

/-- C5 witness: destination `o/a` already holds a file and overwrite is
off, so the job is skipped and returns 0. -/
theorem c5_witness :
    (_copy fsSkipDemo ["s","a"] ["s"] ["o"] false).2 = .ok 0 :=
  c5_skip_write_decision.2 fsSkipDemo ["s","a"] ["s"] ["o"] false "a" rfl
    (fun hc => PyErr.noConfusion (Except.error.inj hc)) rfl

/-- C6: round-trip. A job that proceeds to write and returns normally has
read the whole source into memory and written it in full: the destination's
byte content afterwards equals the source's exactly, and the returned count
is the source's byte length. -/
theorem c6_written_content_round_trip :
    ∀ (fs : FS) (p sd od : Path) (ov : Bool) (fs2 : FS) (n : Nat),
      _copy fs p sd od ov = (fs2, .ok n) →
      writeDecision fs (fullOutputPath od sd p) ov = true →
      ∃ doc, fs.files p = some doc ∧ n = doc.length ∧
        fs2.files (fullOutputPath od sd p) = some doc :=
  fun _ _ _ _ _ _ _ h hdec => copy_write_round_trip h hdec

/-- C6 witness: the 2-byte file `s/a` is copied to `o/a` intact, and the
worker reports 2 bytes. -/
theorem c6_witness :
    ∃ doc, fsWriteDemo.files ["s","a"] = some doc ∧ 2 = doc.length ∧
      ((_copy fsWriteDemo ["s","a"] ["s"] ["o"] false).1).files
        (fullOutputPath ["o"] ["s"] ["s","a"]) = some doc :=
  c6_written_content_round_trip fsWriteDemo ["s","a"] ["s"] ["o"] false
    ((_copy fsWriteDemo ["s","a"] ["s"] ["o"] false).1) 2 rfl rfl

/-- C7 counterexample: with a regular file `o/x` blocking the output
directory of job `s/x/a`, the job fails in the first run and fails again
identically in the second run — the second run's job result is a
`NotADirectoryError`, not `Skipped` with byte count 0. -/
theorem c7_counterexample :
    (runJobs (runJobs fsBlockedDest [["s","x","a"]] ["s"] ["o"] false).1
        [["s","x","a"]] ["s"] ["o"] false).2
      = [Except.error PyErr.notADirectoryError] ∧
    (Except.error PyErr.notADirectoryError : Except PyErr Nat) ≠ Except.ok 0 :=
  ⟨rfl, fun h => Except.noConfusion h⟩

/-- C7 (amended): if every job of the first run completed normally, then a
second run over the same jobs with overwrite disabled changes nothing — the
filesystem is untouched and every job of the second run resolves to a skip
returning byte count 0. -/
theorem c7_second_run_all_skipped :
    ∀ (fs : FS) (jobs : List Path) (sd od : Path) (ov : Bool),
      (∀ r ∈ (runJobs fs jobs sd od ov).2, ∃ n, r = Except.ok n) →
      (runJobs (runJobs fs jobs sd od ov).1 jobs sd od false).1
          = (runJobs fs jobs sd od ov).1 ∧
      (runJobs (runJobs fs jobs sd od ov).1 jobs sd od false).2
          = jobs.map (fun _ => Except.ok 0) := by
  intro fs jobs sd od ov hall
  have hpost := runJobs_all_ok_post fs jobs sd od ov hall
  have hskip := runJobs_all_skip (runJobs fs jobs sd od ov).1 jobs sd od hpost
  exact ⟨by rw [hskip], by rw [hskip]⟩

/-- C7 witness: one job, copied on the first run, skipped with 0 on the
second. -/
theorem c7_witness :
    (runJobs (runJobs fsIdemDemo [["s","a"]] ["s"] ["o"] false).1
        [["s","a"]] ["s"] ["o"] false).1
      = (runJobs fsIdemDemo [["s","a"]] ["s"] ["o"] false).1 ∧
    (runJobs (runJobs fsIdemDemo [["s","a"]] ["s"] ["o"] false).1
        [["s","a"]] ["s"] ["o"] false).2
      = [["s","a"]].map (fun _ => Except.ok 0) :=
  c7_second_run_all_skipped fsIdemDemo [["s","a"]] ["s"] ["o"] false (by
    intro r hr
    rw [show (runJobs fsIdemDemo [["s","a"]] ["s"] ["o"] false).2
        = [Except.ok 1] from rfl] at hr
    exact ⟨1, List.mem_singleton.1 hr⟩)

/-- C8 counterexample: when a log path is given, a file already exists
there, force is off and the user declines, `check_capture_logs` logs an
info line and returns — capture stays disallowed, the file is kept, and no
process exit (of any status) is requested; the run continues. -/
theorem c8_counterexample :
    check_capture_logs true true false false = ⟨false, false, none⟩ ∧
    ¬ ∃ ec, ec ≠ 0 ∧ (check_capture_logs true true false false).exitCode = some ec := by
  refine ⟨rfl, ?_⟩
  rintro ⟨ec, -, hec⟩
  rw [show (check_capture_logs true true false false).exitCode = none from rfl] at hec
  exact Option.noConfusion hec

/-- C8 (amended): `check_capture_logs` never requests a process exit — on a
declined overwrite the run continues with log capture disabled and the
existing log file kept — and per-file copy failures cannot change the exit
status: the pool consumes every job and returns normally, each failure
ending as a logged per-job result rather than an exception. -/
theorem c8_decline_does_not_exit :
    (∀ (pg fa f a : Bool), (check_capture_logs pg fa f a).exitCode = none) ∧
    check_capture_logs true true false false = ⟨false, false, none⟩ ∧
    (∀ (fs : FS) (jobs : List Path) (sd od : Path) (ov : Bool),
      ((runPool fs jobs sd od ov).2).length = jobs.length) ∧
    (∀ (fs : FS) (p sd od : Path) (ov : Bool) (e : PyErr),
      (_copy fs p sd od ov).2 = .error e →
        (_copy_safe fs p sd od ov).2.1 = some e) :=
  ⟨by decide, rfl, runPool_length,
   fun _ _ _ _ _ _ h => by rw [copy_safe_of_error h]⟩

/-- C9: the recursive walk yields exactly the paths addressing a regular
file in the tree (directories are traversed, never yielded) whose file name
passes the suffix filter; with no extension every file name passes; and on
the spec's example tree with extension `txt` exactly `a.txt` and
`sub/b.txt` are yielded. -/
theorem c9_walk_yields_exactly_matching_files :
    (∀ (ftype : Option String) (cs : List FSTree) (p : Path),
      p ∈ walkEntries ftype true cs ↔
        ((∃ sz, IsFileIn cs p sz) ∧
         ∃ b, p.getLast? = some b ∧ fileMatch ftype b = true)) ∧
    (∀ n, fileMatch none n = true) ∧
    walkEntries (some "txt") true exampleTree = [["a.txt"], ["sub","b.txt"]] :=
  ⟨mem_walkEntries, fun _ => rfl, by decide⟩

/-- C10 counterexample: a skipped job, whose worker-side byte count is 0,
reaches the pool boundary as `None`, not 0 — `_copy_safe` discards the
value `_copy` returned. -/
theorem c10_counterexample :
    (_copy fsSkipDemo ["s","a"] ["s"] ["o"] false).2 = .ok 0 ∧
    _copy_safe fsSkipDemo ["s","a"] ["s"] ["o"] false = (fsSkipDemo, none, none) ∧
    (none : Option Nat) ≠ some 0 :=
  ⟨rfl, rfl, by decide⟩

/-- C10 (amended): `_copy_safe` has no `return` statement, so the per-job
value the aggregation loop consumes (and passes as the byte-progress
advance) is `None` for every job — failed, skipped and written alike; the
outcome is visible only in the log: a failed job logs its error, a job that
returned normally logs nothing. -/
theorem c10_pool_value_always_none :
    (∀ (fs : FS) (p sd od : Path) (ov : Bool),
      (_copy_safe fs p sd od ov).2.2 = none) ∧
    (∀ (fs : FS) (p sd od : Path) (ov : Bool) (e : PyErr),
      (_copy fs p sd od ov).2 = .error e →
        (_copy_safe fs p sd od ov).2.1 = some e) ∧
    (∀ (fs : FS) (p sd od : Path) (ov : Bool) (n : Nat),
      (_copy fs p sd od ov).2 = .ok n →
        (_copy_safe fs p sd od ov).2.1 = none) :=
  ⟨copy_safe_ret_none,
   fun _ _ _ _ _ _ h => by rw [copy_safe_of_error h],
   fun _ _ _ _ _ _ h => by rw [copy_safe_of_ok h]⟩

end PyCopy
